import Mathlib

/-!
Shallow embedding of the `dw-download` repository (Dreamwidth export tooling):
`dw-downloader.py` (single-month exporter) and `dw-batch-export.py` (batch
driver).  Pure fragments of the Python code are translated into executable
Lean definitions; the claims about the spec are settled as theorems below.
-/

set_option maxRecDepth 10000

namespace DwDownload

/-! ### String primitives

Python `needle in hay` is substring containment and `str.lower()` maps each
character to lower case; both are modelled over `List Char`. -/

/-- Does `hay` start with `needle`?  (Models the inner step of Python `in`.) -/
def startsWithList : List Char → List Char → Bool
  | _, [] => true
  | [], _ :: _ => false
  | h :: hs, n :: ns => h = n && startsWithList hs ns

/-- Substring containment on character lists: Python `needle in hay`. -/
def containsList : List Char → List Char → Bool
  | [], needle => startsWithList [] needle
  | h :: t, needle => startsWithList (h :: t) needle || containsList t needle

/-- Python `needle in hay` on strings. -/
def strContains (hay needle : String) : Bool :=
  containsList hay.toList needle.toList

/-- Python `s.lower()` (ASCII-adequate). -/
def strLower (s : String) : String :=
  String.mk (s.toList.map Char.toLower)

theorem startsWithList_iff (hay needle : List Char) :
    startsWithList hay needle = true ↔ ∃ rest, hay = needle ++ rest := by
  induction needle generalizing hay with
  | nil => simp [startsWithList]
  | cons n ns ih =>
    cases hay with
    | nil => simp [startsWithList]
    | cons h t =>
      simp only [startsWithList, Bool.and_eq_true, decide_eq_true_eq, ih,
        List.cons_append, List.cons.injEq]
      constructor
      · rintro ⟨rfl, rest, rfl⟩; exact ⟨rest, rfl, rfl⟩
      · rintro ⟨rest, rfl, rfl⟩; exact ⟨rfl, rest, rfl⟩

theorem containsList_iff (hay needle : List Char) :
    containsList hay needle = true ↔ ∃ l r, hay = l ++ needle ++ r := by
  induction hay with
  | nil =>
    simp only [containsList, startsWithList_iff]
    constructor
    · rintro ⟨rest, h⟩
      exact ⟨[], rest, by simpa using h⟩
    · rintro ⟨l, r, h⟩
      have h' : l = [] ∧ needle = [] ∧ r = [] := by
        simpa [List.append_eq_nil] using h.symm
      exact ⟨r, by simp [h'.2.1, h'.2.2]⟩
  | cons h t ih =>
    simp only [containsList, Bool.or_eq_true, startsWithList_iff, ih]
    constructor
    · rintro (⟨rest, hr⟩ | ⟨l, r, rfl⟩)
      · exact ⟨[], rest, by simpa using hr⟩
      · exact ⟨h :: l, r, rfl⟩
    · rintro ⟨l, r, hl⟩
      cases l with
      | nil => exact Or.inl ⟨r, by simpa using hl⟩
      | cons x xs =>
        right
        have hl' : x = h ∧ xs ++ needle ++ r = t := by
          simpa [List.cons_append] using hl.symm
        exact ⟨xs, r, hl'.2.symm⟩

/-- `strContains` decides genuine substring occurrence. -/
theorem strContains_iff (hay needle : String) :
    strContains hay needle = true ↔
      ∃ l r, hay.toList = l ++ needle.toList ++ r :=
  containsList_iff hay.toList needle.toList

/-! ### HTML form model (`dw-downloader.py`)

A `<select>` option carries its `value` attribute (BeautifulSoup's
`o.get("value", "")`, so an absent attribute is the empty string) and its
stripped text `label`.  A form records, in document order, its selects, its
radio inputs, and its visible text (`form.get_text(" ", strip=True)`). -/

structure SelOption where
  value : String
  label : String
deriving DecidableEq, Repr

structure Select where
  name : Option String
  options : List SelOption
deriving DecidableEq, Repr

structure RadioInput where
  name : Option String
  value : String
deriving DecidableEq, Repr

structure Form where
  selects : List Select
  radios : List RadioInput
  text : String
deriving DecidableEq, Repr

/-- `f.find("select", {"name": "year"}) or f.find("select", {"name": "month"})`. -/
def formHasYearMonthSelect (f : Form) : Bool :=
  f.selects.any (fun s => s.name == some "year" || s.name == some "month")

/-- `"export" in (f.get_text(" ", strip=True) or "").lower()`. -/
def formTextHasExport (f : Form) : Bool :=
  strContains (strLower f.text) "export"

/-- `choose_export_form` (dw-downloader.py:94-106): raise if no form; loop over
the forms, returning the first with a year/month select or with "export" in
its visible text; else fall back to the first form. -/
def choose_export_form (forms : List Form) : Except String Form :=
  match forms with
  | [] => Except.error "No form found on /export page"
  | f0 :: _ =>
    match forms.find? (fun f => formHasYearMonthSelect f || formTextHasExport f) with
    | some f => Except.ok f
    | none => Except.ok f0

/-! ### Year/month field-name inference (`guess_year_month_field_names`) -/

/-- Python `s.isdigit()` (ASCII-adequate). -/
def pyIsDigit (s : String) : Bool :=
  !s.toList.isEmpty && s.toList.all Char.isDigit

/-- Decimal value of a digit string, Python `int(s)` for `s.isdigit()`. -/
def digitsToNat (s : String) : Nat :=
  s.toList.foldl (fun acc c => acc * 10 + (c.toNat - 48)) 0

/-- `sum(1 for o in opts if o.isdigit() and len(o) == 4)`. -/
def selYearish (s : Select) : Nat :=
  (s.options.filter (fun o => pyIsDigit o.label && o.label.length == 4)).length

/-- `sum(1 for o in opts if o.isdigit() and 1 <= int(o) <= 12)`. -/
def selMonthish (s : Select) : Nat :=
  (s.options.filter (fun o =>
    pyIsDigit o.label && decide (1 ≤ digitsToNat o.label) && decide (digitsToNat o.label ≤ 12))).length

/-- One iteration of the loop body of `guess_year_month_field_names`. -/
def guessStep (acc : String × String) (s : Select) : String × String :=
  match s.name with
  | none => acc
  | some n =>
    ((if selYearish s ≥ 5 then n else acc.1),
     (if selMonthish s ≥ 5 then n else acc.2))

/-- `guess_year_month_field_names` (dw-downloader.py:149-165): start from the
literal defaults and let each qualifying named select overwrite the fields. -/
def guess_year_month_field_names (f : Form) : String × String :=
  f.selects.foldl guessStep ("year", "month")

/-! ### Output-format coercion (`force_output_format_xml`) -/

/-- Payloads are Python dicts name → value; `payload[name] = v` overwrites an
existing key in place or appends a fresh one. -/
def dictSet (p : List (String × String)) (k v : String) : List (String × String) :=
  if p.any (fun kv => kv.1 == k) then
    p.map (fun kv => if kv.1 == k then (k, v) else kv)
  else
    p ++ [(k, v)]

/-- `"xml" in (value or "").lower() or "xml" in (label or "").lower()`. -/
def optionMatchesXml (o : SelOption) : Bool :=
  strContains (strLower o.value) "xml" || strContains (strLower o.label) "xml"

/-- Value written on a select match: `value if value != "" else label`. -/
def xmlChoice (o : SelOption) : String :=
  if o.value ≠ "" then o.value else o.label

/-- First (named select, matching option) pair in document order, as the
select-scanning loop of `force_output_format_xml` finds it. -/
def findXmlInSelects : List Select → Option (String × String)
  | [] => none
  | s :: rest =>
    match s.name with
    | none => findXmlInSelects rest
    | some n =>
      match s.options.find? optionMatchesXml with
      | some o => some (n, xmlChoice o)
      | none => findXmlInSelects rest

/-- One step of collecting radio-group names: keep dict insertion order,
skipping unnamed inputs and names already seen. -/
def radioNamesStep (acc : List String) (r : RadioInput) : List String :=
  match r.name with
  | none => acc
  | some n => if acc.contains n then acc else acc ++ [n]

/-- Names of the radio groups in dict insertion order (first occurrence of
each name among `<input type="radio">` elements that have a name). -/
def radioGroupNames (radios : List RadioInput) : List String :=
  radios.foldl radioNamesStep []

/-- Values of one radio group, in document order. -/
def radioGroupValues (radios : List RadioInput) (n : String) : List String :=
  (radios.filter (fun r => r.name == some n)).map (fun r => r.value)

/-- The radio fallback loop: first group (insertion order) holding a value
whose lower-casing contains "xml". -/
def findXmlInRadios (radios : List RadioInput) : Option (String × String) :=
  (radioGroupNames radios).findSome? (fun n =>
    ((radioGroupValues radios n).find? (fun v => strContains (strLower v) "xml")).map
      (fun v => (n, v)))

/-- `force_output_format_xml` (dw-downloader.py:168-217): scan selects first,
then radio groups; on a match update the payload and return `true`; with no
match anywhere return `changed = false` with the payload untouched. -/
def force_output_format_xml (f : Form) (payload : List (String × String)) :
    Bool × List (String × String) :=
  match findXmlInSelects f.selects with
  | some (n, v) => (true, dictSet payload n v)
  | none =>
    match findXmlInRadios f.radios with
    | some (n, v) => (true, dictSet payload n v)
    | none => (false, payload)

/-! ### Authentication classification (dw-downloader.py:310-313) -/

/-- The redirect test guarding the export page:
`"returnto=/export" in r.url or "login" in r.url.lower()` negated — the
session counts as authenticated when neither marker occurs in the final URL. -/
def isAuthenticated (finalUrl : String) : Bool :=
  !(strContains finalUrl "returnto=/export" || strContains (strLower finalUrl) "login")

/-- The two early exits after fetching the export page: exit 3 when not
authenticated (whatever the status), else exit 3 when the status is not 200,
else proceed. -/
def classifyExportGet (finalUrl : String) (status : Nat) : Option Nat :=
  if !isAuthenticated finalUrl then some 3
  else if status ≠ 200 then some 3
  else none

/-! ### Retrying transport (`request_with_retries`, dw-downloader.py:69-91) -/

/-- One attempt either yields an HTTP status or raises a transport error. -/
inductive AttemptOutcome where
  | status (code : Nat)
  | exc
deriving DecidableEq, Repr

/-- `r.status_code in (429, 500, 502, 503, 504)`. -/
def retryableStatus (c : Nat) : Bool :=
  c == 429 || c == 500 || c == 502 || c == 503 || c == 504

/-- The attempt loop: `endpoint i` is the outcome of the `i`-th attempt
(1-indexed); a retryable status or an exception moves on to the next attempt
until the remaining budget runs out, any other status is returned. -/
def requestAttempts (endpoint : Nat → AttemptOutcome) : Nat → Nat → Option Nat
  | _, 0 => none
  | attempt, fuel + 1 =>
    match endpoint attempt with
    | AttemptOutcome.status c =>
      if retryableStatus c then requestAttempts endpoint (attempt + 1) fuel
      else some c
    | AttemptOutcome.exc => requestAttempts endpoint (attempt + 1) fuel

/-- `request_with_retries`: run attempts `1..max_retries`; falling off the
loop raises `RuntimeError` with a message naming the method and URL. -/
def request_with_retries (method url : String) (endpoint : Nat → AttemptOutcome)
    (maxRetries : Nat) : Except String Nat :=
  match requestAttempts endpoint 1 maxRetries with
  | some c => Except.ok c
  | none =>
    Except.error ("Failed after " ++ toString maxRetries ++ " attempts: "
      ++ method ++ " " ++ url)

/-! ### Cookie-source bootstrap (dw-downloader.py:281-298) -/

/-- Python truthiness of an optional string CLI argument. -/
def truthyArg : Option String → Bool
  | none => false
  | some v => v ≠ ""

inductive CookieSource where
  | file (path : String)
  | header (raw : String)
deriving DecidableEq, Repr

/-- The bootstrap branch of `main`: error (exit 2) when neither
`--cookie-file` nor `--cookie-header` is truthy; otherwise load from the file
when it is truthy, else from the header. -/
def bootstrapSource (cookieFile cookieHeader : Option String) :
    Except Nat CookieSource :=
  if !truthyArg cookieFile && !truthyArg cookieHeader then
    Except.error 2
  else if truthyArg cookieFile then
    Except.ok (CookieSource.file (cookieFile.getD ""))
  else
    Except.ok (CookieSource.header (cookieHeader.getD ""))

end DwDownload

namespace DwBatch

open DwDownload

/-! ### Month iteration (`month_range`, dw-batch-export.py:35-42) -/

/-- Python tuple comparison `(y, m) <= (ey, em)`. -/
def pairLe (a b : Nat × Nat) : Prop :=
  a.1 < b.1 ∨ (a.1 = b.1 ∧ a.2 ≤ b.2)

/-- Strict tuple comparison `(y, m) < (ey, em)`. -/
def pairLt (a b : Nat × Nat) : Prop :=
  a.1 < b.1 ∨ (a.1 = b.1 ∧ a.2 < b.2)

instance (a b : Nat × Nat) : Decidable (pairLe a b) := by
  unfold pairLe; exact inferInstance

instance (a b : Nat × Nat) : Decidable (pairLt a b) := by
  unfold pairLt; exact inferInstance

/-- `month_range`: yield `(y, m)` while `(y, m) <= (ey, em)`, stepping the
month and wrapping `m > 12` into January of the next year. -/
def month_range (y m ey em : Nat) : List (Nat × Nat) :=
  if h : pairLe (y, m) (ey, em) then
    (y, m) ::
      (if m + 1 > 12 then month_range (y + 1) 1 ey em
       else month_range y (m + 1) ey em)
  else
    []
termination_by 13 * (ey + 1 - y) + (12 - m)
decreasing_by
  · simp only [pairLe] at h
    omega
  · simp only [pairLe] at h
    omega

/-! ### Failure ledger (`record_failure`, dw-batch-export.py:51-64) -/

/-- Decimal digits of a natural number, as characters. -/
def natDecimalAux : Nat → List Char → List Char
  | 0, acc => acc
  | n + 1, acc =>
    natDecimalAux ((n + 1) / 10) (Char.ofNat (48 + (n + 1) % 10) :: acc)
decreasing_by
  exact Nat.div_lt_self (Nat.succ_pos n) (by omega)

/-- Python `str(n)` for a natural number. -/
def natDecimal (n : Nat) : String :=
  match n with
  | 0 => "0"
  | n + 1 => String.mk (natDecimalAux (n + 1) [])

/-- Python `str(i)` for an integer. -/
def intDecimal (i : Int) : String :=
  if i < 0 then "-" ++ natDecimal i.natAbs else natDecimal i.natAbs

/-- Python `f"{n:0wd}"` for a non-negative value: left-pad the decimal form
with zeros to `width` characters. -/
def padZeros (width : Nat) (n : Nat) : String :=
  String.mk (List.replicate (width - (natDecimal n).length) '0') ++ natDecimal n

/-- A UTC wall-clock instant, second resolution, as used by
`datetime.utcnow().isoformat(timespec="seconds")`. -/
structure UTCTime where
  year : Nat
  month : Nat
  day : Nat
  hour : Nat
  minute : Nat
  second : Nat
deriving DecidableEq, Repr

/-- `isoformat(timespec="seconds")`: `YYYY-MM-DDTHH:MM:SS`. -/
def isoformatSeconds (t : UTCTime) : String :=
  padZeros 4 t.year ++ "-" ++ padZeros 2 t.month ++ "-" ++ padZeros 2 t.day
    ++ "T" ++ padZeros 2 t.hour ++ ":" ++ padZeros 2 t.minute
    ++ ":" ++ padZeros 2 t.second

/-- `str(exit_code)` where `exit_code : int | None`. -/
def exitCodeStr : Option Int → String
  | none => "None"
  | some i => intDecimal i

/-- The line `record_failure` appends:
`f"{year:04d},{month:02d},{timestamp},{exit_code}\n"` with
`timestamp = isoformat + "Z"`. -/
def record_failure_line (year month : Nat) (t : UTCTime) (exitCode : Option Int) :
    String :=
  padZeros 4 year ++ "," ++ padZeros 2 month ++ "," ++ (isoformatSeconds t ++ "Z")
    ++ "," ++ exitCodeStr exitCode ++ "\n"

/-- Splitting a character list at every occurrence of a delimiter. -/
def splitCharList (c : Char) : List Char → List (List Char)
  | [] => [[]]
  | x :: xs =>
    match splitCharList c xs with
    | [] => [[]]
    | h :: t => if x = c then [] :: h :: t else (x :: h) :: t

/-- The trivial line-split on the ledger delimiter. -/
def splitOnComma (s : String) : List String :=
  (splitCharList ',' s.toList).map String.mk

/-! ### Batch driver loop (`main`, dw-batch-export.py:97-169) -/

inductive Pause where
  | normal
  | grumpy
deriving DecidableEq, Repr

/-- Observable batch state threaded through the month loop: the
consecutive-failure counter, the ledger rows appended so far, the set of
output artifacts on disk, and traces of the exports launched, the artifact
writes, and the pacing pauses performed. -/
structure BatchState where
  failures : Nat
  ledger : List (Nat × Nat × Int)
  existing : List (Nat × Nat)
  launched : List (Nat × Nat)
  writes : List (Nat × Nat)
  pauses : List Pause
deriving DecidableEq, Repr

/-- Result of one `dw-downloader.py` subprocess run for a month: its exit
code, and whether it wrote the month's output file. -/
structure ExportRun where
  returncode : Int
  produced : Bool
deriving DecidableEq, Repr

/-- The month loop of `main`: skip a month whose output file already exists;
otherwise launch the export; on `returncode == 0 and outfile.exists()` reset
the failure counter and pause normally; otherwise count the failure, append a
ledger row, pause grumpily, and return exit 3 once `failures >= 5`.  Falling
off the loop returns exit 0. -/
def runBatch (outcome : Nat × Nat → ExportRun) :
    List (Nat × Nat) → BatchState → BatchState × Nat
  | [], st => (st, 0)
  | ym :: rest, st =>
    if ym ∈ st.existing then
      runBatch outcome rest st
    else
      let res := outcome ym
      let st1 : BatchState :=
        { st with
          launched := st.launched ++ [ym]
          existing := if res.produced then st.existing ++ [ym] else st.existing
          writes := if res.produced then st.writes ++ [ym] else st.writes }
      if res.returncode = 0 ∧ res.produced then
        runBatch outcome rest
          { st1 with failures := 0, pauses := st1.pauses ++ [Pause.normal] }
      else
        let st2 : BatchState :=
          { st1 with
            failures := st1.failures + 1
            ledger := st1.ledger ++ [(ym.1, ym.2, res.returncode)]
            pauses := st1.pauses ++ [Pause.grumpy] }
        if st2.failures ≥ 5 then (st2, 3)
        else runBatch outcome rest st2

end DwBatch

namespace DwDownload

/-! ### Transport lemmas -/

theorem requestAttempts_all_503 (endpoint : Nat → AttemptOutcome) :
    ∀ fuel attempt,
      (∀ i, attempt ≤ i → i < attempt + fuel → endpoint i = AttemptOutcome.status 503) →
      requestAttempts endpoint attempt fuel = none := by
  intro fuel
  induction fuel with
  | zero => intro attempt _; rfl
  | succ fuel ih =>
    intro attempt h
    have h0 : endpoint attempt = AttemptOutcome.status 503 :=
      h attempt (Nat.le_refl _) (by omega)
    simp only [requestAttempts, h0, retryableStatus]
    norm_num
    exact ih (attempt + 1) (fun i h1 h2 => h i (by omega) (by omega))

theorem requestAttempts_third_ok (endpoint : Nat → AttemptOutcome) (k : Nat)
    (h1 : endpoint 1 = AttemptOutcome.status 503)
    (h2 : endpoint 2 = AttemptOutcome.status 503)
    (h3 : endpoint 3 = AttemptOutcome.status 200) :
    requestAttempts endpoint 1 (k + 3) = some 200 := by
  show requestAttempts endpoint 1 ((k + 2) + 1) = some 200
  simp only [requestAttempts, h1, h2, h3, retryableStatus]
  norm_num

/-- C3: with `max_retries ≥ 3`, an endpoint answering 503 on every one of the
`max_retries` attempts makes the transport fail with the exhaustion error
naming the method and URL (later attempts are never consulted), while an
endpoint answering 503 twice and then 200 on the third attempt yields that
200 response. -/
theorem C3_transport_retry_exhaustion (method url : String)
    (e503 e200 : Nat → AttemptOutcome) (n : Nat) (hn : 3 ≤ n) :
    ((∀ i, 1 ≤ i → i ≤ n → e503 i = AttemptOutcome.status 503) →
      request_with_retries method url e503 n =
        Except.error ("Failed after " ++ toString n ++ " attempts: "
          ++ method ++ " " ++ url))
    ∧ (e200 1 = AttemptOutcome.status 503 → e200 2 = AttemptOutcome.status 503 →
        e200 3 = AttemptOutcome.status 200 →
        request_with_retries method url e200 n = Except.ok 200) := by
  constructor
  · intro h
    have hnone : requestAttempts e503 1 n = none :=
      requestAttempts_all_503 e503 n 1 (fun i hi1 hi2 => h i hi1 (by omega))
    simp [request_with_retries, hnone]
  · intro h1 h2 h3
    obtain ⟨k, rfl⟩ : ∃ k, n = k + 3 := ⟨n - 3, by omega⟩
    have hsome := requestAttempts_third_ok e200 k h1 h2 h3
    simp [request_with_retries, hsome]

/-- Witness for C3 at `max_retries = 6`, the repository's default. -/
theorem C3_transport_retry_exhaustion_witness :
    request_with_retries "POST" "https://www.dreamwidth.org/export"
        (fun _ => AttemptOutcome.status 503) 6 =
      Except.error "Failed after 6 attempts: POST https://www.dreamwidth.org/export"
    ∧ request_with_retries "POST" "https://www.dreamwidth.org/export"
        (fun i => if 3 ≤ i then AttemptOutcome.status 200 else AttemptOutcome.status 503) 6 =
      Except.ok 200 := by
  have h := C3_transport_retry_exhaustion "POST" "https://www.dreamwidth.org/export"
    (fun _ => AttemptOutcome.status 503)
    (fun i => if 3 ≤ i then AttemptOutcome.status 200 else AttemptOutcome.status 503)
    6 (by decide)
  exact ⟨h.1 (fun i _ _ => rfl), h.2 (by decide) (by decide) (by decide)⟩

/-! ### Authentication classifier -/

/-- C4 counterexample: a final URL carrying the `returnto=/export` marker but
no occurrence of "login" is still classified as not authenticated, refuting
"false exactly when the URL contains the substring login". -/
theorem C4_counterexample :
    isAuthenticated "https://www.dreamwidth.org/?returnto=/export" = false
    ∧ strContains
        (strLower "https://www.dreamwidth.org/?returnto=/export") "login" = false := by
  constructor <;> rfl

/-- C4 (amended): the classifier reports not-authenticated exactly when the
final URL contains the substring `returnto=/export` (case-sensitively) or the
substring "login" case-insensitively; whenever it does, the export fetch
exits with code 3 regardless of the HTTP status code. -/
theorem C4_auth_classifier (url : String) :
    (isAuthenticated url = false ↔
      (∃ l r, url.toList = l ++ "returnto=/export".toList ++ r)
      ∨ (∃ l r, (strLower url).toList = l ++ "login".toList ++ r))
    ∧ (∀ status : Nat, isAuthenticated url = false →
        classifyExportGet url status = some 3) := by
  constructor
  · rw [← strContains_iff, ← strContains_iff]
    cases hA : strContains url "returnto=/export" <;>
      cases hB : strContains (strLower url) "login" <;>
        simp [isAuthenticated, hA, hB]
  · intro status h
    simp [classifyExportGet, h]

/-- Witness for C4 on the login-redirect URL, at status 200. -/
theorem C4_auth_classifier_witness :
    classifyExportGet "https://www.dreamwidth.org/login?returnto=%2Fexport" 200 = some 3 :=
  (C4_auth_classifier "https://www.dreamwidth.org/login?returnto=%2Fexport").2 200 (by rfl)

/-! ### Form locator -/

/-- The per-form test of the selection loop: the form has a year/month select
or "export" occurs in its lowered visible text. -/
def formWanted (f : Form) : Bool :=
  formHasYearMonthSelect f || formTextHasExport f

theorem choose_find (forms : List Form) (f0 : Form) (rest : List Form)
    (hforms : forms = f0 :: rest) :
    choose_export_form forms =
      match forms.find? formWanted with
      | some f => Except.ok f
      | none => Except.ok f0 := by
  subst hforms
  rfl

/-- C2 counterexample: in a document whose first form merely mentions
"Export" in its text and whose second form has a `<select name="year">`, the
locator returns the first form, although a form with a year/month select
exists — refuting the whole-document three-tier priority. -/
theorem C2_counterexample :
    choose_export_form
        [⟨[], [], "Export your journal"⟩,
         ⟨[⟨some "year", []⟩], [], ""⟩] =
      Except.ok ⟨[], [], "Export your journal"⟩
    ∧ formHasYearMonthSelect ⟨[], [], "Export your journal"⟩ = false
    ∧ formTextHasExport ⟨[], [], "Export your journal"⟩ = true
    ∧ formHasYearMonthSelect ⟨[⟨some "year", []⟩], [], ""⟩ = true := by
  refine ⟨rfl, rfl, rfl, rfl⟩

/-- C2 (amended): the locator makes a single pass over the forms in document
order and returns the first form that either contains a `<select>` named
`year` or `month` or whose visible text contains "export" case-insensitively;
if no form passes either test it returns the first form in document order,
and with no forms at all it fails. -/
theorem C2_form_locator (forms : List Form) (f0 : Form) (rest : List Form)
    (hforms : forms = f0 :: rest) :
    (∀ pre f post, forms = pre ++ f :: post →
      formWanted f = true →
      (∀ g ∈ pre, formWanted g = false) →
      choose_export_form forms = Except.ok f)
    ∧ ((∀ g ∈ forms, formWanted g = false) → choose_export_form forms = Except.ok f0)
    ∧ choose_export_form [] = Except.error "No form found on /export page" := by
  refine ⟨?_, ?_, rfl⟩
  · intro pre f post hsplit hf hpre
    rw [choose_find forms f0 rest hforms, hsplit]
    clear hsplit hforms
    have hfind : (pre ++ f :: post).find? formWanted = some f := by
      induction pre with
      | nil => simp [List.find?_cons_of_pos, hf]
      | cons g gs ih =>
        rw [List.cons_append, List.find?_cons_of_neg _ (by simp [hpre g (by simp)])]
        exact ih (fun g' hg' => hpre g' (by simp [hg']))
    rw [hfind]
  · intro hnone
    rw [choose_find forms f0 rest hforms]
    rw [List.find?_eq_none.mpr (fun g hg => by simp [hnone g hg])]

/-- Witness for C2 on a two-form document whose second form is the export
form. -/
theorem C2_form_locator_witness :
    choose_export_form
        [⟨[], [], "Search"⟩, ⟨[⟨some "month", []⟩], [], ""⟩] =
      Except.ok ⟨[⟨some "month", []⟩], [], ""⟩ :=
  (C2_form_locator _ _ _ rfl).1 [⟨[], [], "Search"⟩] ⟨[⟨some "month", []⟩], [], ""⟩ []
    rfl (by rfl) (by intro g hg; simp at hg; subst hg; rfl)

/-! ### Output-format coercion lemmas -/

theorem findXmlInSelects_append_none (pre l : List Select)
    (hpre : ∀ t ∈ pre, ∀ m, t.name = some m → ∀ q ∈ t.options, optionMatchesXml q = false) :
    findXmlInSelects (pre ++ l) = findXmlInSelects l := by
  induction pre with
  | nil => rfl
  | cons t ts ih =>
    rw [List.cons_append]
    have step : findXmlInSelects (t :: (ts ++ l)) = findXmlInSelects (ts ++ l) := by
      cases hname : t.name with
      | none => simp [findXmlInSelects, hname]
      | some m =>
        have hfind : t.options.find? optionMatchesXml = none :=
          List.find?_eq_none.mpr (fun q hq => by
            simp [hpre t (by simp) m hname q hq])
        simp [findXmlInSelects, hname, hfind]
    rw [step]
    exact ih (fun t' ht' => hpre t' (by simp [ht']))

theorem findXmlInSelects_cons_match (s : Select) (l : List Select) (n : String)
    (o : SelOption) (opre opost : List SelOption)
    (hname : s.name = some n) (hopts : s.options = opre ++ o :: opost)
    (hopre : ∀ q ∈ opre, optionMatchesXml q = false)
    (ho : optionMatchesXml o = true) :
    findXmlInSelects (s :: l) = some (n, xmlChoice o) := by
  have hfind : s.options.find? optionMatchesXml = some o := by
    rw [hopts]
    clear hopts
    induction opre with
    | nil => simp [List.find?_cons_of_pos, ho]
    | cons q qs ih =>
      rw [List.cons_append, List.find?_cons_of_neg _ (by simp [hopre q (by simp)])]
      exact ih (fun q' hq' => hopre q' (by simp [hq']))
  simp [findXmlInSelects, hname, hfind]

theorem mem_radioGroupNames (radios : List RadioInput) (n : String) :
    n ∈ radioGroupNames radios → ∃ r ∈ radios, r.name = some n := by
  suffices h : ∀ acc, n ∈ radios.foldl radioNamesStep acc →
      n ∈ acc ∨ ∃ r ∈ radios, r.name = some n by
    intro hmem
    rcases h [] hmem with hacc | hr
    · simp at hacc
    · exact hr
  induction radios with
  | nil => intro acc h; exact Or.inl h
  | cons r rs ih =>
    intro acc h
    rw [List.foldl_cons] at h
    rcases ih _ h with hacc | ⟨r', hr', hn'⟩
    · cases hname : r.name with
      | none => simp [radioNamesStep, hname] at hacc; exact Or.inl hacc
      | some m =>
        simp only [radioNamesStep, hname] at hacc
        by_cases hc : acc.contains m
        · rw [if_pos hc] at hacc
          exact Or.inl hacc
        · rw [if_neg hc] at hacc
          rcases List.mem_append.mp hacc with h1 | h2
          · exact Or.inl h1
          · simp at h2
            exact Or.inr ⟨r, by simp, by rw [hname, h2]⟩
    · exact Or.inr ⟨r', by simp [hr'], hn'⟩

theorem findXmlInRadios_eq_none (radios : List RadioInput)
    (h : ∀ r ∈ radios, ∀ m, r.name = some m → strContains (strLower r.value) "xml" = false) :
    findXmlInRadios radios = none := by
  rw [findXmlInRadios]
  rw [List.findSome?_eq_none_iff]
  intro n hn
  have hfind : (radioGroupValues radios n).find?
      (fun v => strContains (strLower v) "xml") = none := by
    apply List.find?_eq_none.mpr
    intro v hv
    rcases List.mem_map.mp hv with ⟨r, hr, rfl⟩
    have hrname : r.name = some n := by
      have := (List.mem_filter.mp hr).2
      simpa using this
    simp [h r (List.mem_filter.mp hr).1 n hrname]
  simp [hfind]

/-- C6: the output-format coercion scans the selects in document order and
stops at the first named select holding an option whose value or label
contains "xml" case-insensitively, setting that select's payload entry to the
option's value, or to its label when the value is empty — later selects and
options are never consulted; on the select with options
`[("1","HTML"), ("2","XML")]` it sets the field to `"2"`; when no select
matches it falls back to the radio groups; and when nothing matches anywhere
it reports `false` and leaves the payload unmodified. -/
theorem C6_force_output_format_xml :
    (∀ payload : List (String × String),
      force_output_format_xml ⟨[⟨some "format", [⟨"1", "HTML"⟩, ⟨"2", "XML"⟩]⟩], [], ""⟩ payload
        = (true, dictSet payload "format" "2"))
    ∧ (∀ o : SelOption, (o.value ≠ "" → xmlChoice o = o.value)
        ∧ (o.value = "" → xmlChoice o = o.label))
    ∧ (∀ (radios : List RadioInput) (text : String)
        (payload : List (String × String)) (pre post : List Select)
        (s : Select) (n : String) (o : SelOption) (opre opost : List SelOption),
        (∀ t ∈ pre, ∀ m, t.name = some m → ∀ q ∈ t.options, optionMatchesXml q = false) →
        s.name = some n → s.options = opre ++ o :: opost →
        (∀ q ∈ opre, optionMatchesXml q = false) → optionMatchesXml o = true →
        force_output_format_xml ⟨pre ++ s :: post, radios, text⟩ payload
          = (true, dictSet payload n (xmlChoice o)))
    ∧ (∀ (f : Form) (payload : List (String × String)) (n : String) (v : String),
        (∀ t ∈ f.selects, ∀ m, t.name = some m → ∀ q ∈ t.options, optionMatchesXml q = false) →
        findXmlInRadios f.radios = some (n, v) →
        force_output_format_xml f payload = (true, dictSet payload n v))
    ∧ (∀ (f : Form) (payload : List (String × String)),
        (∀ t ∈ f.selects, ∀ m, t.name = some m → ∀ q ∈ t.options, optionMatchesXml q = false) →
        (∀ r ∈ f.radios, ∀ m, r.name = some m → strContains (strLower r.value) "xml" = false) →
        force_output_format_xml f payload = (false, payload)) := by
  refine ⟨?_, ?_, ?_, ?_, ?_⟩
  · intro payload
    rfl
  · intro o
    exact ⟨fun h => by simp [xmlChoice, h], fun h => by simp [xmlChoice, h]⟩
  · intro radios text payload pre post s n o opre opost hpre hname hopts hopre ho
    have hsel : findXmlInSelects (pre ++ s :: post) = some (n, xmlChoice o) := by
      rw [findXmlInSelects_append_none pre (s :: post) hpre]
      exact findXmlInSelects_cons_match s post n o opre opost hname hopts hopre ho
    simp [force_output_format_xml, hsel]
  · intro f payload n v hsel hrad
    have hnone : findXmlInSelects f.selects = none := by
      have := findXmlInSelects_append_none f.selects [] hsel
      simpa using this
    simp [force_output_format_xml, hnone, hrad]
  · intro f payload hsel hrad
    have hnone : findXmlInSelects f.selects = none := by
      have := findXmlInSelects_append_none f.selects [] hsel
      simpa using this
    simp [force_output_format_xml, hnone, findXmlInRadios_eq_none f.radios hrad]

/-- Witness for C6: the HTML/XML select, the radio fallback, and the
no-match soft failure, at concrete forms. -/
theorem C6_force_output_format_xml_witness :
    force_output_format_xml
        ⟨[⟨some "format", [⟨"1", "HTML"⟩, ⟨"2", "XML"⟩]⟩], [], ""⟩ [("format", "1")]
      = (true, [("format", "2")])
    ∧ force_output_format_xml
        ⟨[⟨some "what", [⟨"posts", "Posts"⟩]⟩], [⟨some "fmt", "csv"⟩, ⟨some "fmt", "xml"⟩], ""⟩ []
      = (true, [("fmt", "xml")])
    ∧ force_output_format_xml
        ⟨[⟨some "what", [⟨"posts", "Posts"⟩]⟩], [⟨some "fmt", "csv"⟩], ""⟩ [("a", "b")]
      = (false, [("a", "b")]) := by
  refine ⟨?_, ?_, ?_⟩
  · exact C6_force_output_format_xml.1 [("format", "1")]
  · exact C6_force_output_format_xml.2.2.2.1
      ⟨[⟨some "what", [⟨"posts", "Posts"⟩]⟩], [⟨some "fmt", "csv"⟩, ⟨some "fmt", "xml"⟩], ""⟩
      [] "fmt" "xml"
      (by
        intro t ht m hm q hq
        simp at ht
        subst ht
        simp at hm hq
        subst hq
        rfl)
      (by rfl)
  · exact C6_force_output_format_xml.2.2.2.2
      ⟨[⟨some "what", [⟨"posts", "Posts"⟩]⟩], [⟨some "fmt", "csv"⟩], ""⟩ [("a", "b")]
      (by
        intro t ht m hm q hq
        simp at ht
        subst ht
        simp at hm hq
        subst hq
        rfl)
      (by
        intro r hr m hm
        simp at hr
        subst hr
        rfl)

/-! ### Field-name inference -/

theorem guessFold_no_year (l : List Select) :
    ∀ acc, (∀ t ∈ l, ∀ m, t.name = some m → selYearish t < 5) →
      (l.foldl guessStep acc).1 = acc.1 := by
  induction l with
  | nil => intro acc _; rfl
  | cons t ts ih =>
    intro acc h
    rw [List.foldl_cons]
    rw [ih _ (fun t' ht' => h t' (by simp [ht']))]
    cases hname : t.name with
    | none => simp [guessStep, hname]
    | some m =>
      have := h t (by simp) m hname
      simp [guessStep, hname, Nat.not_le.mpr this]

theorem guessFold_no_month (l : List Select) :
    ∀ acc, (∀ t ∈ l, ∀ m, t.name = some m → selMonthish t < 5) →
      (l.foldl guessStep acc).2 = acc.2 := by
  induction l with
  | nil => intro acc _; rfl
  | cons t ts ih =>
    intro acc h
    rw [List.foldl_cons]
    rw [ih _ (fun t' ht' => h t' (by simp [ht']))]
    cases hname : t.name with
    | none => simp [guessStep, hname]
    | some m =>
      have := h t (by simp) m hname
      simp [guessStep, hname, Nat.not_le.mpr this]

/-- C10: inference scans the selects in order and lets each qualifier
overwrite the field, so when several named selects qualify for a role the
last one in document order wins; and one select passing both thresholds
(≥ 5 four-digit options, ≥ 5 options that are numerals in 1..12) becomes both
the year and the month field at once. -/
theorem C10_guess_field_names (f : Form) (pre post : List Select)
    (s : Select) (n : String)
    (hsplit : f.selects = pre ++ s :: post) (hname : s.name = some n) :
    (selYearish s ≥ 5 →
      (∀ t ∈ post, ∀ m, t.name = some m → selYearish t < 5) →
      (guess_year_month_field_names f).1 = n)
    ∧ (selMonthish s ≥ 5 →
        (∀ t ∈ post, ∀ m, t.name = some m → selMonthish t < 5) →
        (guess_year_month_field_names f).2 = n)
    ∧ (selYearish s ≥ 5 → selMonthish s ≥ 5 →
        (∀ t ∈ post, ∀ m, t.name = some m → selYearish t < 5 ∧ selMonthish t < 5) →
        guess_year_month_field_names f = (n, n)) := by
  have hy : selYearish s ≥ 5 →
      (∀ t ∈ post, ∀ m, t.name = some m → selYearish t < 5) →
      (guess_year_month_field_names f).1 = n := by
    intro hq hpost
    rw [guess_year_month_field_names, hsplit, List.foldl_append, List.foldl_cons]
    rw [guessFold_no_year post _ hpost]
    simp [guessStep, hname, hq]
  have hm : selMonthish s ≥ 5 →
      (∀ t ∈ post, ∀ m, t.name = some m → selMonthish t < 5) →
      (guess_year_month_field_names f).2 = n := by
    intro hq hpost
    rw [guess_year_month_field_names, hsplit, List.foldl_append, List.foldl_cons]
    rw [guessFold_no_month post _ hpost]
    simp [guessStep, hname, hq]
  refine ⟨hy, hm, ?_⟩
  intro hqy hqm hpost
  have h1 := hy hqy (fun t ht m hm' => (hpost t ht m hm').1)
  have h2 := hm hqm (fun t ht m hm' => (hpost t ht m hm').2)
  exact Prod.ext h1 h2

/-- Six four-digit year labels, enough to qualify a select as year-like. -/
def yearLabels : List SelOption :=
  [⟨"", "2001"⟩, ⟨"", "2002"⟩, ⟨"", "2003"⟩, ⟨"", "2004"⟩, ⟨"", "2005"⟩, ⟨"", "2006"⟩]

/-- Zero-padded labels "0001".."0012": four-digit numerals whose values lie
in 1..12, so a select with them passes both thresholds. -/
def dualLabels : List SelOption :=
  [⟨"", "0001"⟩, ⟨"", "0002"⟩, ⟨"", "0003"⟩, ⟨"", "0004"⟩, ⟨"", "0005"⟩, ⟨"", "0006"⟩,
   ⟨"", "0007"⟩, ⟨"", "0008"⟩, ⟨"", "0009"⟩, ⟨"", "0010"⟩, ⟨"", "0011"⟩, ⟨"", "0012"⟩]

/-- Witness for C10: two year-qualifying selects (the later one wins) and a
single select qualifying as both fields via labels "0001".."0012". -/
theorem C10_guess_field_names_witness :
    (guess_year_month_field_names
        ⟨[⟨some "y1", yearLabels⟩, ⟨some "y2", yearLabels⟩], [], ""⟩).1 = "y2"
    ∧ guess_year_month_field_names ⟨[⟨some "dual", dualLabels⟩], [], ""⟩
      = ("dual", "dual") := by
  constructor
  · exact (C10_guess_field_names _ [⟨some "y1", yearLabels⟩] []
      ⟨some "y2", yearLabels⟩ "y2" rfl rfl).1
      (by decide) (by intro t ht; simp at ht)
  · exact (C10_guess_field_names _ [] [] ⟨some "dual", dualLabels⟩ "dual"
      rfl rfl).2.2 (by decide) (by decide) (by intro t ht; simp at ht)

/-! ### Cookie-source configuration -/

/-- C5 counterexample: supplying both a cookie file and a raw cookie header
does not fail — the bootstrap proceeds, the file taking precedence — refuting
"supplying both also fails". -/
theorem C5_counterexample :
    bootstrapSource (some "cookies.txt") (some "ljsession=abc") =
      Except.ok (CookieSource.file "cookies.txt")
    ∧ bootstrapSource (some "cookies.txt") (some "ljsession=abc") ≠ Except.error 2 := by
  have he : bootstrapSource (some "cookies.txt") (some "ljsession=abc") =
      Except.ok (CookieSource.file "cookies.txt") := rfl
  exact ⟨he, by rw [he]; intro hc; exact Except.noConfusion hc⟩

/-- C5 (amended): session bootstrap fails with the configuration exit (2)
exactly when neither cookie source is supplied; when the cookie file is
supplied it is used, even if a header is also supplied; the header is used
only when the file is absent. -/
theorem C5_cookie_source (f h : Option String) :
    (bootstrapSource f h = Except.error 2 ↔
      truthyArg f = false ∧ truthyArg h = false)
    ∧ (∀ v, f = some v → v ≠ "" →
        bootstrapSource f h = Except.ok (CookieSource.file v))
    ∧ (truthyArg f = false → ∀ v, h = some v → v ≠ "" →
        bootstrapSource f h = Except.ok (CookieSource.header v)) := by
  refine ⟨?_, ?_, ?_⟩
  · constructor
    · intro heq
      by_contra hc
      rw [Decidable.not_and_iff_or_not] at hc
      rcases hc with hc | hc
      · have : truthyArg f = true := by simpa using hc
        simp [bootstrapSource, this] at heq
      · have hh : truthyArg h = true := by simpa using hc
        by_cases hf : truthyArg f = true <;> simp [bootstrapSource, hf, hh] at heq
    · rintro ⟨h1, h2⟩
      simp [bootstrapSource, h1, h2]
  · rintro v rfl hv
    have : truthyArg (some v) = true := by simp [truthyArg, hv]
    simp [bootstrapSource, this]
  · rintro hf v rfl hv
    have : truthyArg (some v) = true := by simp [truthyArg, hv]
    simp [bootstrapSource, hf, this]

/-- Witness for C5 at concrete argument vectors. -/
theorem C5_cookie_source_witness :
    bootstrapSource none none = Except.error 2
    ∧ bootstrapSource (some "cookies.txt") none =
        Except.ok (CookieSource.file "cookies.txt")
    ∧ bootstrapSource none (some "ljsession=abc") =
        Except.ok (CookieSource.header "ljsession=abc") :=
  ⟨(C5_cookie_source none none).1.mpr ⟨rfl, rfl⟩,
   (C5_cookie_source (some "cookies.txt") none).2.1 "cookies.txt" rfl (by decide),
   (C5_cookie_source none (some "ljsession=abc")).2.2 rfl "ljsession=abc" rfl (by decide)⟩

end DwDownload

namespace DwBatch

/-! ### Ledger round-trip lemmas -/

/-- No character of `s` is the ledger delimiter. -/
def noComma (s : String) : Prop :=
  ∀ ch ∈ s.toList, ch ≠ ','

theorem strToList_append (a b : String) : (a ++ b).toList = a.toList ++ b.toList :=
  String.data_append a b

theorem strMk_toList (s : String) : String.mk s.toList = s := rfl

theorem noComma_append {a b : String} (ha : noComma a) (hb : noComma b) :
    noComma (a ++ b) := by
  intro ch hch
  rw [strToList_append] at hch
  rcases List.mem_append.mp hch with h | h
  · exact ha ch h
  · exact hb ch h

theorem isDigit_ne_comma {ch : Char} (h : ch.isDigit = true) : ch ≠ ',' := by
  intro hc
  subst hc
  simp [Char.isDigit] at h

theorem natDecimalAux_chars :
    ∀ (n : Nat) (acc : List Char), ∀ ch ∈ natDecimalAux n acc,
      ch ∈ acc ∨ ch.isDigit = true := by
  intro n acc
  induction n, acc using natDecimalAux.induct with
  | case1 acc =>
    intro ch hch
    rw [natDecimalAux] at hch
    exact Or.inl hch
  | case2 n acc ih =>
    intro ch hch
    rw [natDecimalAux] at hch
    rcases ih ch hch with h | h
    · rcases List.mem_cons.mp h with h1 | h1
      · right
        subst h1
        have hlt : (n + 1) % 10 < 10 := Nat.mod_lt _ (by norm_num)
        generalize hv : (n + 1) % 10 = v at hlt
        interval_cases v <;> decide
      · exact Or.inl h1
    · exact Or.inr h

theorem natDecimal_chars (n : Nat) : ∀ ch ∈ (natDecimal n).toList, ch.isDigit = true := by
  intro ch hch
  match n with
  | 0 =>
    simp only [natDecimal] at hch
    have : ch = '0' := by simpa using hch
    subst this
    decide
  | n + 1 =>
    simp only [natDecimal] at hch
    rcases natDecimalAux_chars (n + 1) [] ch hch with h | h
    · simp at h
    · exact h

theorem noComma_natDecimal (n : Nat) : noComma (natDecimal n) :=
  fun ch hch => isDigit_ne_comma (natDecimal_chars n ch hch)

theorem noComma_padZeros (w n : Nat) : noComma (padZeros w n) := by
  apply noComma_append
  · intro ch hch
    have : ch = '0' := by
      have := List.eq_of_mem_replicate (by simpa using hch)
      exact this
    subst this
    decide
  · exact noComma_natDecimal n

theorem noComma_intDecimal (i : Int) : noComma (intDecimal i) := by
  rw [intDecimal]
  by_cases h : i < 0
  · rw [if_pos h]
    exact noComma_append (by intro ch hch; simp at hch; subst hch; decide)
      (noComma_natDecimal _)
  · rw [if_neg h]
    exact noComma_natDecimal _

theorem noComma_lit_dash : noComma "-" := by intro ch hch; simp at hch; subst hch; decide

theorem noComma_lit_T : noComma "T" := by intro ch hch; simp at hch; subst hch; decide

theorem noComma_lit_colon : noComma ":" := by intro ch hch; simp at hch; subst hch; decide

theorem noComma_lit_Z : noComma "Z" := by intro ch hch; simp at hch; subst hch; decide

theorem noComma_isoformat (t : UTCTime) : noComma (isoformatSeconds t) := by
  rw [isoformatSeconds]
  have a1 := noComma_padZeros 4 t.year
  have a2 := noComma_append a1 noComma_lit_dash
  have a3 := noComma_append a2 (noComma_padZeros 2 t.month)
  have a4 := noComma_append a3 noComma_lit_dash
  have a5 := noComma_append a4 (noComma_padZeros 2 t.day)
  have a6 := noComma_append a5 noComma_lit_T
  have a7 := noComma_append a6 (noComma_padZeros 2 t.hour)
  have a8 := noComma_append a7 noComma_lit_colon
  have a9 := noComma_append a8 (noComma_padZeros 2 t.minute)
  have a10 := noComma_append a9 noComma_lit_colon
  exact noComma_append a10 (noComma_padZeros 2 t.second)

theorem noComma_exitCodeStr (code : Option Int) : noComma (exitCodeStr code) := by
  cases code with
  | none =>
    intro ch hch
    simp only [exitCodeStr] at hch
    fin_cases hch <;> decide
  | some i => exact noComma_intDecimal i

/-! ### Split lemmas -/

theorem splitCharList_ne_nil (c : Char) (l : List Char) : splitCharList c l ≠ [] := by
  cases l with
  | nil => simp [splitCharList]
  | cons x xs =>
    rw [splitCharList]
    rcases h : splitCharList c xs with _ | ⟨hd, tl⟩
    · simp
    · by_cases hx : x = c <;> simp [hx]

theorem splitCharList_no_delim (c : Char) (l : List Char) (h : ∀ x ∈ l, x ≠ c) :
    splitCharList c l = [l] := by
  induction l with
  | nil => rfl
  | cons x xs ih =>
    rw [splitCharList, ih (fun y hy => h y (by simp [hy]))]
    simp [h x (by simp)]

theorem splitCharList_append (c : Char) (a b : List Char) (h : ∀ x ∈ a, x ≠ c) :
    splitCharList c (a ++ c :: b) = a :: splitCharList c b := by
  induction a with
  | nil =>
    rw [List.nil_append, splitCharList]
    rcases hb : splitCharList c b with _ | ⟨hd, tl⟩
    · exact absurd hb (splitCharList_ne_nil c b)
    · simp
  | cons x xs ih =>
    rw [List.cons_append, splitCharList, ih (fun y hy => h y (by simp [hy]))]
    simp [h x (by simp)]

/-- The line written by `record_failure`, with its trailing newline removed as
a line-by-line reader does. -/
def stripNewline (s : String) : String :=
  String.mk s.toList.dropLast

/-- C8: splitting the written ledger line on the comma delimiter recovers
exactly the four written fields — zero-padded year, zero-padded month, UTC
timestamp, exit code — and the delimiter never occurs inside any field. -/
theorem C8_ledger_round_trip (year month : Nat) (t : UTCTime) (code : Option Int) :
    splitOnComma (stripNewline (record_failure_line year month t code)) =
      [padZeros 4 year, padZeros 2 month, isoformatSeconds t ++ "Z", exitCodeStr code]
    ∧ ∀ fld ∈ [padZeros 4 year, padZeros 2 month,
        isoformatSeconds t ++ "Z", exitCodeStr code],
        ∀ ch ∈ fld.toList, ch ≠ ',' := by
  have nc1 : noComma (padZeros 4 year) := noComma_padZeros 4 year
  have nc2 : noComma (padZeros 2 month) := noComma_padZeros 2 month
  have nc3 : noComma (isoformatSeconds t ++ "Z") :=
    noComma_append (noComma_isoformat t) noComma_lit_Z
  have nc4 : noComma (exitCodeStr code) := noComma_exitCodeStr code
  constructor
  · have hline : (record_failure_line year month t code).toList =
        ((padZeros 4 year).toList ++ ',' ::
          ((padZeros 2 month).toList ++ ',' ::
            ((isoformatSeconds t ++ "Z").toList ++ ',' ::
              (exitCodeStr code).toList))) ++ ['\n'] := by
      rw [record_failure_line]
      simp only [strToList_append]
      simp [String.toList]
    have hstrip : (stripNewline (record_failure_line year month t code)).toList =
        (padZeros 4 year).toList ++ ',' ::
          ((padZeros 2 month).toList ++ ',' ::
            ((isoformatSeconds t ++ "Z").toList ++ ',' ::
              (exitCodeStr code).toList)) := by
      rw [stripNewline]
      show ((record_failure_line year month t code).toList).dropLast = _
      rw [hline, List.dropLast_concat]
    rw [splitOnComma, hstrip]
    rw [splitCharList_append ',' _ _ nc1]
    rw [splitCharList_append ',' _ _ nc2]
    rw [splitCharList_append ',' _ _ nc3]
    rw [splitCharList_no_delim ',' _ nc4]
    simp only [List.map_cons, List.map_nil, strMk_toList]
  · intro fld hfld
    fin_cases hfld
    · exact nc1
    · exact nc2
    · exact nc3
    · exact nc4

end DwBatch

namespace DwBatch

/-! ### Batch step equations -/

/-- State after the failure path for month `ym`: counter incremented, ledger
row appended, grumpy pause, artifact recorded when the subprocess produced
one anyway. -/
def failState (outcome : Nat × Nat → ExportRun) (ym : Nat × Nat) (st : BatchState) :
    BatchState :=
  { failures := st.failures + 1
    ledger := st.ledger ++ [(ym.1, ym.2, (outcome ym).returncode)]
    existing := if (outcome ym).produced then st.existing ++ [ym] else st.existing
    launched := st.launched ++ [ym]
    writes := if (outcome ym).produced then st.writes ++ [ym] else st.writes
    pauses := st.pauses ++ [Pause.grumpy] }

/-- State after the success path for month `ym`. -/
def successState (ym : Nat × Nat) (st : BatchState) : BatchState :=
  { failures := 0
    ledger := st.ledger
    existing := st.existing ++ [ym]
    launched := st.launched ++ [ym]
    writes := st.writes ++ [ym]
    pauses := st.pauses ++ [Pause.normal] }

theorem runBatch_skip (outcome : Nat × Nat → ExportRun) (ym : Nat × Nat)
    (rest : List (Nat × Nat)) (st : BatchState) (hmem : ym ∈ st.existing) :
    runBatch outcome (ym :: rest) st = runBatch outcome rest st := by
  simp [runBatch, hmem]

theorem runBatch_success (outcome : Nat × Nat → ExportRun) (ym : Nat × Nat)
    (rest : List (Nat × Nat)) (st : BatchState) (hmem : ym ∉ st.existing)
    (h0 : (outcome ym).returncode = 0) (hp : (outcome ym).produced = true) :
    runBatch outcome (ym :: rest) st = runBatch outcome rest (successState ym st) := by
  simp [runBatch, hmem, h0, hp, successState]

theorem runBatch_failure_continue (outcome : Nat × Nat → ExportRun) (ym : Nat × Nat)
    (rest : List (Nat × Nat)) (st : BatchState) (hmem : ym ∉ st.existing)
    (hf : ¬((outcome ym).returncode = 0 ∧ (outcome ym).produced = true))
    (hlt : st.failures + 1 < 5) :
    runBatch outcome (ym :: rest) st = runBatch outcome rest (failState outcome ym st) := by
  simp only [runBatch, hmem, if_neg hmem, if_neg hf]
  rw [if_neg (show ¬(st.failures + 1 ≥ 5) by omega)]
  rfl

theorem runBatch_failure_trip (outcome : Nat × Nat → ExportRun) (ym : Nat × Nat)
    (rest : List (Nat × Nat)) (st : BatchState) (hmem : ym ∉ st.existing)
    (hf : ¬((outcome ym).returncode = 0 ∧ (outcome ym).produced = true))
    (hge : st.failures + 1 ≥ 5) :
    runBatch outcome (ym :: rest) st = (failState outcome ym st, 3) := by
  simp only [runBatch, if_neg hmem, if_neg hf]
  rw [if_pos (by omega)]
  rfl

/-! ### Batch run trace decomposition -/

theorem runBatch_spec (outcome : Nat × Nat → ExportRun) :
    ∀ (months : List (Nat × Nat)) (st : BatchState), ∃ d w,
      ((runBatch outcome months st).1.launched = st.launched ++ d)
      ∧ ((runBatch outcome months st).1.writes = st.writes ++ w)
      ∧ ((runBatch outcome months st).1.existing = st.existing ++ w)
      ∧ (∀ p ∈ d, p ∈ months ∧ p ∉ st.existing)
      ∧ (∀ p ∈ w, p ∈ d)
      ∧ (months.Nodup → d.Nodup ∧ w.Nodup) := by
  intro months
  induction months with
  | nil =>
    intro st
    exact ⟨[], [], by simp [runBatch], by simp [runBatch], by simp [runBatch],
      by simp, by simp, fun _ => ⟨List.nodup_nil, List.nodup_nil⟩⟩
  | cons ym rest ih =>
    intro st
    by_cases hmem : ym ∈ st.existing
    · obtain ⟨d, w, hl, hw, he, hd, hw2, hnd⟩ := ih st
      rw [← runBatch_skip outcome ym rest st hmem] at hl hw he
      refine ⟨d, w, hl, hw, he, ?_, hw2, ?_⟩
      · exact fun p hp => ⟨List.mem_cons_of_mem _ (hd p hp).1, (hd p hp).2⟩
      · intro hnodup
        exact hnd (List.Nodup.of_cons hnodup)
    · by_cases hs : (outcome ym).returncode = 0 ∧ (outcome ym).produced = true
      · -- success path
        obtain ⟨d, w, hl, hw, he, hd, hw2, hnd⟩ := ih (successState ym st)
        rw [← runBatch_success outcome ym rest st hmem hs.1 hs.2] at hl hw he
        have hnotin : ∀ p ∈ d, p ∉ st.existing ++ [ym] := by
          intro p hp
          exact (hd p hp).2
        refine ⟨ym :: d, ym :: w, ?_, ?_, ?_, ?_, ?_, ?_⟩
        · rw [hl]; simp [successState]
        · rw [hw]; simp [successState]
        · rw [he]; simp [successState]
        · intro p hp
          rcases List.mem_cons.mp hp with rfl | hp'
          · exact ⟨List.mem_cons_self _ _, hmem⟩
          · refine ⟨List.mem_cons_of_mem _ (hd p hp').1, ?_⟩
            intro hc
            exact hnotin p hp' (List.mem_append_left _ hc)
        · intro p hp
          rcases List.mem_cons.mp hp with rfl | hp'
          · exact List.mem_cons_self _ _
          · exact List.mem_cons_of_mem _ (hw2 p hp')
        · intro hnodup
          have hrest := List.Nodup.of_cons hnodup
          obtain ⟨hdn, hwn⟩ := hnd hrest
          have hymd : ym ∉ d := by
            intro hc
            exact hnotin ym hc (List.mem_append_right _ (by simp))
          exact ⟨List.Nodup.cons hymd hdn,
            List.Nodup.cons (fun hc => hymd (hw2 ym hc)) hwn⟩
      · by_cases htrip : st.failures + 1 ≥ 5
        · -- breaker trips: no further months processed
          have heq := runBatch_failure_trip outcome ym rest st hmem hs htrip
          refine ⟨[ym], if (outcome ym).produced then [ym] else [], ?_, ?_, ?_, ?_, ?_, ?_⟩
          · rw [heq]; simp [failState]
          · rw [heq]; cases hp : (outcome ym).produced <;> simp [failState, hp]
          · rw [heq]; cases hp : (outcome ym).produced <;> simp [failState, hp]
          · intro p hp
            rcases List.mem_singleton.mp hp with rfl
            exact ⟨List.mem_cons_self _ _, hmem⟩
          · intro p hp
            cases hprod : (outcome ym).produced with
            | true => rw [hprod] at hp; simpa using hp
            | false => rw [hprod] at hp; simp at hp
          · intro _
            refine ⟨List.nodup_singleton _, ?_⟩
            cases hprod : (outcome ym).produced <;> simp
        · -- failure, batch continues
          obtain ⟨d, w, hl, hw, he, hd, hw2, hnd⟩ := ih (failState outcome ym st)
          rw [← runBatch_failure_continue outcome ym rest st hmem hs (by omega)] at hl hw he
          have hnotin : ∀ p ∈ d, p ∉
              (if (outcome ym).produced then st.existing ++ [ym] else st.existing) := by
            intro p hp
            exact (hd p hp).2
          refine ⟨ym :: d, (if (outcome ym).produced then [ym] else []) ++ w,
            ?_, ?_, ?_, ?_, ?_, ?_⟩
          · rw [hl]; simp [failState]
          · rw [hw]; cases hp : (outcome ym).produced <;> simp [failState, hp]
          · rw [he]; cases hp : (outcome ym).produced <;> simp [failState, hp]
          · intro p hp
            rcases List.mem_cons.mp hp with rfl | hp'
            · exact ⟨List.mem_cons_self _ _, hmem⟩
            · refine ⟨List.mem_cons_of_mem _ (hd p hp').1, ?_⟩
              intro hc
              apply hnotin p hp'
              cases hprod : (outcome ym).produced with
              | true => simp [hprod]; exact Or.inl hc
              | false => simpa [hprod] using hc
          · intro p hp
            rcases List.mem_append.mp hp with hp' | hp'
            · cases hprod : (outcome ym).produced with
              | true =>
                rw [hprod] at hp'
                simp at hp'
                subst hp'
                exact List.mem_cons_self _ _
              | false => rw [hprod] at hp'; simp at hp'
            · exact List.mem_cons_of_mem _ (hw2 p hp')
          · intro hnodup
            have hrest := List.Nodup.of_cons hnodup
            obtain ⟨hdn, hwn⟩ := hnd hrest
            have hymd : ym ∉ d := by
              intro hc
              apply hnotin ym hc
              cases hprod : (outcome ym).produced with
              | true => simp [hprod]
              | false =>
                simp only [hprod, if_neg Bool.false_ne_true]
                exact absurd ((hd ym hc).1) (by
                  intro hmemr
                  have := hnodup
                  rw [List.nodup_cons] at this
                  exact this.1 hmemr)
            constructor
            · exact List.Nodup.cons hymd hdn
            · cases hprod : (outcome ym).produced with
              | true =>
                simp only [if_pos rfl, List.singleton_append]
                exact List.Nodup.cons (fun hc => hymd (hw2 ym hc)) hwn
              | false =>
                simpa using hwn

end DwBatch

namespace DwBatch

/-! ### Month-range characterization -/

theorem month_range_mem (y m ey em : Nat) :
    1 ≤ m → m ≤ 12 →
      ∀ p : Nat × Nat, p ∈ month_range y m ey em ↔
        (pairLe (y, m) p ∧ pairLe p (ey, em) ∧ 1 ≤ p.2 ∧ p.2 ≤ 12) := by
  induction y, m, ey, em using month_range.induct with
  | case1 y m ey em h ih1 ih2 =>
    intro h1 h2 p
    rw [month_range, dif_pos h]
    by_cases hgt : m + 1 > 12
    · rw [if_pos hgt]
      have ih := ih1 hgt (by norm_num) (by norm_num)
      rcases p with ⟨p1, p2⟩
      rw [List.mem_cons, ih (p1, p2)]
      have h' := h
      simp only [pairLe] at h' ⊢
      simp only [Prod.mk.injEq]
      omega
    · rw [if_neg hgt]
      have ih := ih2 hgt (by omega) (by omega)
      rcases p with ⟨p1, p2⟩
      rw [List.mem_cons, ih (p1, p2)]
      have h' := h
      simp only [pairLe] at h' ⊢
      simp only [Prod.mk.injEq]
      omega
  | case2 y m ey em h =>
    intro h1 h2 p
    rw [month_range, dif_neg h]
    rcases p with ⟨p1, p2⟩
    simp only [List.not_mem_nil, false_iff]
    rintro ⟨ha, hb, _, _⟩
    simp only [pairLe] at h ha hb
    omega

theorem month_range_pairwise (y m ey em : Nat) :
    1 ≤ m → m ≤ 12 → (month_range y m ey em).Pairwise pairLt := by
  induction y, m, ey, em using month_range.induct with
  | case1 y m ey em h ih1 ih2 =>
    intro h1 h2
    rw [month_range, dif_pos h]
    by_cases hgt : m + 1 > 12
    · rw [if_pos hgt]
      refine List.Pairwise.cons ?_ (ih1 hgt (by norm_num) (by norm_num))
      intro q hq
      have hmem := (month_range_mem (y + 1) 1 ey em (by norm_num) (by norm_num) q).mp hq
      rcases q with ⟨q1, q2⟩
      rcases hmem with ⟨ha, _, _, _⟩
      simp only [pairLe] at ha
      simp only [pairLt]
      omega
    · rw [if_neg hgt]
      refine List.Pairwise.cons ?_ (ih2 hgt (by omega) (by omega))
      intro q hq
      have hmem := (month_range_mem y (m + 1) ey em (by omega) (by omega) q).mp hq
      rcases q with ⟨q1, q2⟩
      rcases hmem with ⟨ha, _, _, _⟩
      simp only [pairLe] at ha
      simp only [pairLt]
      omega
  | case2 y m ey em h =>
    intro h1 h2
    rw [month_range, dif_neg h]
    exact List.Pairwise.nil

theorem pairLt_ne {a b : Nat × Nat} (h : pairLt a b) : a ≠ b := by
  rintro rfl
  simp only [pairLt] at h
  omega

/-! ### Claim C7 -/

/-- C7: for a valid starting month, `month_range` enumerates exactly the
closed `(year, month)` interval in strictly ascending order, and a batch run
over it launches each missing month at most once, never launches or writes a
month whose artifact already exists, and writes each artifact at most once. -/
theorem C7_batch_visits_interval (y m ey em : Nat) (h1 : 1 ≤ m) (h2 : m ≤ 12) :
    (∀ p : Nat × Nat, p ∈ month_range y m ey em ↔
      (pairLe (y, m) p ∧ pairLe p (ey, em) ∧ 1 ≤ p.2 ∧ p.2 ≤ 12))
    ∧ (month_range y m ey em).Pairwise pairLt
    ∧ (∀ (outcome : Nat × Nat → ExportRun) (st : BatchState), ∃ d w,
        ((runBatch outcome (month_range y m ey em) st).1.launched = st.launched ++ d)
        ∧ ((runBatch outcome (month_range y m ey em) st).1.writes = st.writes ++ w)
        ∧ ((runBatch outcome (month_range y m ey em) st).1.existing = st.existing ++ w)
        ∧ (∀ p ∈ d, p ∈ month_range y m ey em ∧ p ∉ st.existing)
        ∧ (∀ p ∈ w, p ∈ d)
        ∧ d.Nodup ∧ w.Nodup) := by
  have hmem := month_range_mem y m ey em h1 h2
  have hpw := month_range_pairwise y m ey em h1 h2
  refine ⟨hmem, hpw, ?_⟩
  intro outcome st
  obtain ⟨d, w, hl, hw, he, hd, hw2, hnd⟩ := runBatch_spec outcome (month_range y m ey em) st
  have hnodup : (month_range y m ey em).Nodup := hpw.imp pairLt_ne
  obtain ⟨hdn, hwn⟩ := hnd hnodup
  exact ⟨d, w, hl, hw, he, hd, hw2, hdn, hwn⟩

/-- Witness for C7 on the range 2020-01 .. 2020-10. -/
theorem C7_batch_visits_interval_witness :
    (2020, 7) ∈ month_range 2020 1 2020 10
    ∧ ¬(2021, 3) ∈ month_range 2020 1 2020 10 := by
  have h := C7_batch_visits_interval 2020 1 2020 10 (by norm_num) (by norm_num)
  constructor
  · exact (h.1 (2020, 7)).mpr (by decide)
  · intro hc
    have hx := (h.1 (2021, 3)).mp hc
    rcases hx with ⟨_, hb, _, _⟩
    simp only [pairLe] at hb
    omega

/-! ### Claim C9 -/

/-- C9: a month whose output artifact already exists is skipped as a pure
no-op — the whole batch state (failure counter, ledger, pauses, launches,
writes) continues unchanged, and a batch consisting only of that month ends
with exit 0 and the state untouched. -/
theorem C9_skip_is_noop (outcome : Nat × Nat → ExportRun) (ym : Nat × Nat)
    (rest : List (Nat × Nat)) (st : BatchState) (hmem : ym ∈ st.existing) :
    runBatch outcome (ym :: rest) st = runBatch outcome rest st
    ∧ runBatch outcome [ym] st = (st, 0) := by
  refine ⟨runBatch_skip outcome ym rest st hmem, ?_⟩
  rw [runBatch_skip outcome ym [] st hmem]
  rfl

/-- Witness for C9: the month 2020-01 already on disk is skipped with the
state intact. -/
theorem C9_skip_is_noop_witness :
    runBatch (fun _ => ⟨1, false⟩) [(2020, 1)]
        ⟨3, [], [(2020, 1)], [], [], []⟩ =
      (⟨3, [], [(2020, 1)], [], [], []⟩, 0) :=
  (C9_skip_is_noop (fun _ => ⟨1, false⟩) (2020, 1) []
    ⟨3, [], [(2020, 1)], [], [], []⟩ (by decide)).2

/-! ### Claim C1 -/

/-- The outcome trace of the claim's example: success exactly on the fifth
month, failure (exit 1, nothing written) on all others. -/
def breakerExampleOutcome : Nat × Nat → ExportRun :=
  fun ym => if ym.2 = 5 then ⟨0, true⟩ else ⟨1, false⟩

/-- Ten fresh months, giving the outcome sequence
failure ×4, success, failure ×5. -/
def breakerExampleMonths : List (Nat × Nat) :=
  [(2020, 1), (2020, 2), (2020, 3), (2020, 4), (2020, 5),
   (2020, 6), (2020, 7), (2020, 8), (2020, 9), (2020, 10)]

/-- The batch driver's initial state: counter 0, nothing on disk. -/
def batchInit : BatchState :=
  { failures := 0, ledger := [], existing := [], launched := [], writes := [], pauses := [] }

/-- C1: the consecutive-failure counter resets to 0 on a successful month,
increments by one on a failed month, and once it reaches the threshold 5 the
batch returns exit 3 at once, processing no further months; on the outcome
sequence F,F,F,F,S,F,F,F,F,F the breaker trips only after the tenth month
(the second run of five consecutive failures, nine cumulative), all ten
months having been launched, while the first six or nine months alone finish
with exit 0. -/
theorem C1_circuit_breaker :
    (∀ (outcome : Nat × Nat → ExportRun) (ym : Nat × Nat) (rest : List (Nat × Nat))
        (st : BatchState), ym ∉ st.existing →
      (outcome ym).returncode = 0 → (outcome ym).produced = true →
      runBatch outcome (ym :: rest) st = runBatch outcome rest (successState ym st)
        ∧ (successState ym st).failures = 0)
    ∧ (∀ (outcome : Nat × Nat → ExportRun) (ym : Nat × Nat) (rest : List (Nat × Nat))
        (st : BatchState), ym ∉ st.existing →
        ¬((outcome ym).returncode = 0 ∧ (outcome ym).produced = true) →
        st.failures + 1 < 5 →
        runBatch outcome (ym :: rest) st = runBatch outcome rest (failState outcome ym st)
          ∧ (failState outcome ym st).failures = st.failures + 1)
    ∧ (∀ (outcome : Nat × Nat → ExportRun) (ym : Nat × Nat) (rest : List (Nat × Nat))
        (st : BatchState), ym ∉ st.existing →
        ¬((outcome ym).returncode = 0 ∧ (outcome ym).produced = true) →
        st.failures + 1 ≥ 5 →
        runBatch outcome (ym :: rest) st = (failState outcome ym st, 3))
    ∧ (runBatch breakerExampleOutcome breakerExampleMonths batchInit).2 = 3
    ∧ (runBatch breakerExampleOutcome breakerExampleMonths batchInit).1.launched
        = breakerExampleMonths
    ∧ (runBatch breakerExampleOutcome (breakerExampleMonths.take 6) batchInit).2 = 0
    ∧ (runBatch breakerExampleOutcome (breakerExampleMonths.take 9) batchInit).2 = 0 := by
  refine ⟨?_, ?_, ?_, by decide, by decide, by decide, by decide⟩
  · intro outcome ym rest st hmem h0 hp
    exact ⟨runBatch_success outcome ym rest st hmem h0 hp, rfl⟩
  · intro outcome ym rest st hmem hf hlt
    exact ⟨runBatch_failure_continue outcome ym rest st hmem hf hlt, rfl⟩
  · intro outcome ym rest st hmem hf hge
    exact runBatch_failure_trip outcome ym rest st hmem hf hge

/-- Witness for C1: a success step, a failure step, and the breaker tripping
from counter 4, at concrete months. -/
theorem C1_circuit_breaker_witness :
    runBatch breakerExampleOutcome [(2020, 5)] batchInit =
      runBatch breakerExampleOutcome [] (successState (2020, 5) batchInit)
    ∧ runBatch breakerExampleOutcome [(2020, 1)] batchInit =
        runBatch breakerExampleOutcome [] (failState breakerExampleOutcome (2020, 1) batchInit)
    ∧ runBatch breakerExampleOutcome [(2020, 1)] ⟨4, [], [], [], [], []⟩ =
        (failState breakerExampleOutcome (2020, 1) ⟨4, [], [], [], [], []⟩, 3) := by
  refine ⟨?_, ?_, ?_⟩
  · exact (C1_circuit_breaker.1 breakerExampleOutcome (2020, 5) [] batchInit
      (by decide) (by decide) (by decide)).1
  · exact (C1_circuit_breaker.2.1 breakerExampleOutcome (2020, 1) [] batchInit
      (by decide) (by decide) (by decide)).1
  · exact C1_circuit_breaker.2.2.1 breakerExampleOutcome (2020, 1) []
      ⟨4, [], [], [], [], []⟩ (by decide) (by decide) (by decide)

end DwBatch
